import Mathlib

/- Shallow embedding of the adaptive assessment engine
   (backend/adaptive_engine.py and the adaptive-assessment endpoints of
   backend/server.py).  Python floats are modelled as exact rationals; the
   Fisher-information computation, which uses `exp`, is modelled over the
   reals.  Python dicts are modelled as association lists where an update
   prepends the new binding and `List.lookup` returns the first one. -/

namespace AdaptiveAssessment

/-- Educational grade levels from K through PhD+ (the `GradeLevel` enum). -/
inductive GradeLevel where
  | kindergarten
  | grade_1
  | grade_2
  | grade_3
  | grade_4
  | grade_5
  | grade_6
  | grade_7
  | grade_8
  | grade_9
  | grade_10
  | grade_11
  | grade_12
  | undergraduate
  | graduate
  | doctoral
  | postdoctoral
  | professional
  deriving DecidableEq, Repr

/-- Question complexity levels mapped to cognitive load
    (the `QuestionComplexity` enum). -/
inductive QuestionComplexity where
  | basic
  | comprehension
  | application
  | analysis
  | synthesis
  | evaluation
  | research
  deriving DecidableEq, Repr

/-- The engine's `grade_level_mapping` dict: grade level to an
    `(ability_min, ability_max)` range. -/
def grade_level_mapping : GradeLevel → ℚ × ℚ
  | .kindergarten => (0.0, 0.1)
  | .grade_1 => (0.1, 0.15)
  | .grade_2 => (0.15, 0.2)
  | .grade_3 => (0.2, 0.25)
  | .grade_4 => (0.25, 0.3)
  | .grade_5 => (0.3, 0.35)
  | .grade_6 => (0.35, 0.4)
  | .grade_7 => (0.4, 0.45)
  | .grade_8 => (0.45, 0.5)
  | .grade_9 => (0.5, 0.55)
  | .grade_10 => (0.55, 0.6)
  | .grade_11 => (0.6, 0.65)
  | .grade_12 => (0.65, 0.7)
  | .undergraduate => (0.7, 0.8)
  | .graduate => (0.8, 0.9)
  | .doctoral => (0.9, 0.95)
  | .postdoctoral => (0.95, 1.0)
  | .professional => (0.5, 1.0)

/-- Insertion order of the `grade_level_mapping` dict literal, which is the
    iteration order of `determine_grade_level`. -/
def gradeOrder : List GradeLevel :=
  [.kindergarten, .grade_1, .grade_2, .grade_3, .grade_4, .grade_5, .grade_6,
   .grade_7, .grade_8, .grade_9, .grade_10, .grade_11, .grade_12,
   .undergraduate, .graduate, .doctoral, .postdoctoral, .professional]

/-- The `base_difficulty` table of `calculate_question_difficulty`. -/
def base_difficulty : QuestionComplexity → ℚ
  | .basic => 0.2
  | .comprehension => 0.3
  | .application => 0.5
  | .analysis => 0.7
  | .synthesis => 0.8
  | .evaluation => 0.9
  | .research => 0.95

/-- A well-formed question dict as consumed by
    `calculate_question_difficulty` and `select_next_question`. -/
structure QuestionDescriptor where
  id : String
  complexity : QuestionComplexity
  grade_level : GradeLevel
  requires_prior_knowledge : Bool
  multi_step : Bool
  abstract_reasoning : Bool
  deriving DecidableEq, Repr

/-- `AdaptiveEngine.calculate_question_difficulty`: base value from the
    complexity, rescaled into the grade-level range, plus flag bonuses,
    clamped to [0,1]. -/
def calculate_question_difficulty (question_data : QuestionDescriptor) : ℚ :=
  let difficulty := base_difficulty question_data.complexity
  let gr := grade_level_mapping question_data.grade_level
  let difficulty := gr.1 + (difficulty * (gr.2 - gr.1))
  let difficulty :=
    if question_data.requires_prior_knowledge then difficulty + 0.1 else difficulty
  let difficulty :=
    if question_data.multi_step then difficulty + 0.1 else difficulty
  let difficulty :=
    if question_data.abstract_reasoning then difficulty + 0.15 else difficulty
  min (max difficulty 0.0) 1.0

/-- Substring test used to model Python's `indicator in reasoning`. -/
def containsSub (needle hay : List Char) : Bool :=
  hay.tails.any (fun t => needle.isPrefixOf t)

/-- The reasoning-indicator keyword list of `_assess_reasoning_quality`. -/
def indicators : List String :=
  ["because", "therefore", "since", "due to", "as a result",
   "first", "then", "next", "finally", "step",
   "similar", "different", "compare", "contrast",
   "example", "instance", "such as", "like",
   "analyze", "evaluate", "consider", "examine"]

/-- `AdaptiveEngine._assess_reasoning_quality` applied to the dict's
    `reasoning` text: 0.1 per indicator found, length bonuses, capped at 1. -/
def _assess_reasoning_quality (reasoning_text : String) : ℚ :=
  let reasoning := reasoning_text.toLower
  let quality_score : ℚ :=
    indicators.foldl
      (fun acc ind => if containsSub ind.toList reasoning.toList then acc + 0.1 else acc) 0
  let quality_score := if reasoning.length > 50 then quality_score + 0.2 else quality_score
  let quality_score := if reasoning.length > 100 then quality_score + 0.2 else quality_score
  min quality_score 1.0

/-- One entry of `session.responses` as appended by
    `submit_adaptive_answer` in server.py. -/
structure ResponseRecord where
  question_id : String
  is_correct : Bool
  response_time : ℚ
  question_difficulty : ℚ
  deriving DecidableEq, Repr

/-- The `AdaptiveSession` dataclass (the `start_time` datetime is omitted;
    no claim touches it).  An `ai_help_usage` entry is
    (question_id, assistance_type, content). -/
structure AdaptiveSession where
  session_id : String
  user_id : String
  subject : String
  current_ability_estimate : ℚ
  questions_asked : List String
  responses : List ResponseRecord
  ai_help_usage : List (String × String × String)
  think_aloud_responses : List String
  session_type : String
  deriving DecidableEq, Repr

/-- The mutable state of the global `AdaptiveEngine` instance:
    `question_difficulties` and `session_data`. -/
structure AdaptiveEngineState where
  question_difficulties : List (String × ℚ)
  session_data : List (String × AdaptiveSession)
  deriving Repr

/-- Store a session under an id (dict assignment; the new binding shadows
    any older one for `List.lookup`). -/
def setSession (st : AdaptiveEngineState) (session_id : String)
    (s : AdaptiveSession) : AdaptiveEngineState :=
  { st with session_data := (session_id, s) :: st.session_data }

/-- In-place mutation of the session object held under an id; a no-op when
    the id is absent. -/
def modifySession (st : AdaptiveEngineState) (session_id : String)
    (f : AdaptiveSession → AdaptiveSession) : AdaptiveEngineState :=
  match st.session_data.lookup session_id with
  | none => st
  | some s => setSession st session_id (f s)

/-- `AdaptiveEngine.update_ability_estimate`: returns the mutated engine
    state together with the returned ability value.  `think_aloud_data` is
    the `reasoning` text of the think-aloud dict when one is passed. -/
def update_ability_estimate (st : AdaptiveEngineState) (session_id question_id : String)
    (is_correct : Bool) (response_time : ℚ) (think_aloud_data : Option String) :
    AdaptiveEngineState × ℚ :=
  match st.session_data.lookup session_id with
  | none => (st, 0.5)
  | some session =>
    let current_ability := session.current_ability_estimate
    let question_difficulty := (st.question_difficulties.lookup question_id).getD 0.5
    let adjustment :=
      if is_correct then 0.1 * (1 - current_ability) * (1 - question_difficulty)
      else -(0.1 * current_ability * question_difficulty)
    let adjustment :=
      if response_time < 10 then adjustment * 1.2
      else if response_time > 60 then adjustment * 0.8
      else adjustment
    let adjustment :=
      match think_aloud_data with
      | some ta => adjustment * (0.8 + 0.4 * _assess_reasoning_quality ta)
      | none => adjustment
    let new_ability := max 0.0 (min 1.0 (current_ability + adjustment))
    (setSession st session_id { session with current_ability_estimate := new_ability },
     new_ability)

/-- The composed adjustment of `update_ability_estimate` (base delta, then
    latency modifier, then reasoning modifier), split out so theorems can
    name it. -/
def updAdj (st : AdaptiveEngineState) (qid : String) (c : Bool) (rt : ℚ)
    (ta : Option String) (s : AdaptiveSession) : ℚ :=
  let current_ability := s.current_ability_estimate
  let question_difficulty := (st.question_difficulties.lookup qid).getD 0.5
  let adjustment :=
    if c then 0.1 * (1 - current_ability) * (1 - question_difficulty)
    else -(0.1 * current_ability * question_difficulty)
  let adjustment :=
    if rt < 10 then adjustment * 1.2
    else if rt > 60 then adjustment * 0.8
    else adjustment
  match ta with
  | some t => adjustment * (0.8 + 0.4 * _assess_reasoning_quality t)
  | none => adjustment

/-- `AdaptiveEngine.record_ai_assistance`. -/
def record_ai_assistance (st : AdaptiveEngineState) (session_id assistance_type : String)
    (question_id help_content : String) : AdaptiveEngineState :=
  modifySession st session_id
    (fun s => { s with ai_help_usage := s.ai_help_usage ++ [(question_id, assistance_type, help_content)] })

/-- Membership test of `determine_grade_level`:
    `min_score <= ability_score <= max_score`. -/
def inGradeRange (g : GradeLevel) (ability_score : ℚ) : Prop :=
  (grade_level_mapping g).1 ≤ ability_score
    ∧ ability_score ≤ (grade_level_mapping g).2

instance (g : GradeLevel) (a : ℚ) : Decidable (inGradeRange g a) :=
  inferInstanceAs (Decidable (_ ∧ _))

/-- The loop of `determine_grade_level`: first grade level (in dict
    insertion order) whose range contains the score. -/
def findGrade (ability_score : ℚ) : List GradeLevel → Option GradeLevel
  | [] => none
  | g :: rest =>
    if inGradeRange g ability_score then some g else findGrade ability_score rest

/-- `AdaptiveEngine.determine_grade_level`: first matching range in dict
    insertion order, with the code's fallback chain. -/
def determine_grade_level (ability_score : ℚ) : GradeLevel :=
  match findGrade ability_score gradeOrder with
  | some g => g
  | none =>
    if ability_score < 0.1 then .kindergarten
    else if ability_score > 0.95 then .postdoctoral
    else .grade_8

/-- One point of the `learning_trajectory` list built by
    `_calculate_learning_trajectory`. -/
structure TrajectoryPoint where
  question_number : ℕ
  ability_estimate : ℚ
  question_difficulty : ℚ
  is_correct : Bool
  deriving DecidableEq, Repr

/-- The loop of `_calculate_learning_trajectory`: `est` is the last element
    of the Python `ability_estimates` list, `k` the number of responses
    already consumed. -/
def trajLoop (est : ℚ) (k : ℕ) : List ResponseRecord → List TrajectoryPoint
  | [] => []
  | r :: rest =>
    let est' := if r.is_correct then min 1.0 (est + 0.05) else max 0.0 (est - 0.03)
    { question_number := k + 1, ability_estimate := est',
      question_difficulty := r.question_difficulty, is_correct := r.is_correct }
      :: trajLoop est' (k + 1) rest

/-- `AdaptiveEngine._calculate_learning_trajectory`: the simulated
    progression always starts from the fixed estimate 0.5. -/
def _calculate_learning_trajectory (session : AdaptiveSession) : List TrajectoryPoint :=
  trajLoop 0.5 0 session.responses

/-- Spec-side single step of the simulated trajectory (used to state that
    each correct response adds 0.05 capped at 1 and each incorrect one
    subtracts 0.03 floored at 0). -/
def trajectoryStepSpec (est : ℚ) (r : ResponseRecord) : ℚ :=
  if r.is_correct then min 1.0 (est + 0.05) else max 0.0 (est - 0.03)

/-- `AdaptiveEngine._calculate_information`: Fisher information of the
    simplified one-parameter logistic model.  The float computation is
    modelled over the reals. -/
noncomputable def _calculate_information (ability difficulty : ℚ) : ℝ :=
  let prob : ℝ := 1 / (1 + Real.exp (-((ability : ℝ) - (difficulty : ℝ)) * 1.7))
  prob * (1 - prob)

/-- Information value `select_next_question` computes for a candidate. -/
noncomputable def questionInformation (ability : ℚ) (q : QuestionDescriptor) : ℝ :=
  _calculate_information ability (calculate_question_difficulty q)

/-- The candidate loop of `select_next_question`: carries
    `(best_question, max_information)` and skips already-asked ids. -/
noncomputable def selectLoop (ability : ℚ) (asked : List String) :
    List QuestionDescriptor → Option QuestionDescriptor × ℝ →
    Option QuestionDescriptor × ℝ
  | [], acc => acc
  | q :: rest, (best_question, max_information) =>
    if q.id ∈ asked then
      selectLoop ability asked rest (best_question, max_information)
    else if questionInformation ability q > max_information then
      selectLoop ability asked rest (some q, questionInformation ability q)
    else
      selectLoop ability asked rest (best_question, max_information)

/-- `AdaptiveEngine.select_next_question`: `None` for an unknown session,
    else the best question of the loop started at `(None, 0)`. -/
noncomputable def select_next_question (st : AdaptiveEngineState) (session_id : String)
    (available_questions : List QuestionDescriptor) : Option QuestionDescriptor :=
  match st.session_data.lookup session_id with
  | none => none
  | some session =>
    (selectLoop session.current_ability_estimate session.questions_asked
      available_questions (none, 0)).1

/-- Errors of the HTTP layer (`HTTPException`s of server.py; the outer
    `except` re-raises any of them as a 500, so each is surfaced
    synchronously to the caller). -/
inductive ApiError where
  | sessionNotFound
  | questionNotFound
  deriving DecidableEq, Repr

/-- `get_next_adaptive_question` of server.py: 404 for an unknown session;
    `none` (the `session_complete` response) when selection finds nothing;
    otherwise caches the difficulty, appends the id to
    `session.questions_asked` and returns the question. -/
noncomputable def get_next_adaptive_question (st : AdaptiveEngineState)
    (session_id : String) (available_questions : List QuestionDescriptor) :
    Except ApiError (AdaptiveEngineState × Option QuestionDescriptor) :=
  match st.session_data.lookup session_id with
  | none => .error .sessionNotFound
  | some session =>
    match select_next_question st session_id available_questions with
    | none => .ok (st, none)
    | some next_question =>
      let question_difficulty := calculate_question_difficulty next_question
      let st :=
        { st with question_difficulties :=
            (next_question.id, question_difficulty) :: st.question_difficulties }
      let st := setSession st session_id
        { session with questions_asked := session.questions_asked ++ [next_question.id] }
      .ok (st, some next_question)

/-- A question-bank document as far as `submit_adaptive_answer` reads it
    (points and explanation are not needed by any claim). -/
structure BankQuestion where
  id : String
  correct_answer : String
  deriving DecidableEq, Repr

/-- The fields of `submit_adaptive_answer`'s response that the engine
    computes (points/XP bookkeeping and persistence are external). -/
structure SubmitResult where
  correct : Bool
  ability_estimate_change : ℚ
  new_ability_estimate : ℚ
  estimated_grade_level : GradeLevel
  deriving DecidableEq, Repr

/-- `submit_adaptive_answer` of server.py: 404 when the question id is not
    in the question bank, 404 when the session is unknown; otherwise it
    records optional AI assistance, updates the ability estimate, appends a
    response record (and the think-aloud text when given) to the session,
    and returns correctness, the new ability and its delta.  There is no
    check that `question_id` was ever issued for the session. -/
def submit_adaptive_answer (st : AdaptiveEngineState) (db : List BankQuestion)
    (session_id question_id answer : String) (response_time_seconds : ℚ)
    (think_aloud_data : Option String) (ai_help_used : Bool)
    (ai_help_details : Option (String × String)) :
    Except ApiError (AdaptiveEngineState × SubmitResult) :=
  match db.find? (fun q => q.id == question_id) with
  | none => .error .questionNotFound
  | some question =>
    let is_correct := answer.toLower.trim == question.correct_answer.toLower.trim
    match st.session_data.lookup session_id with
    | none => .error .sessionNotFound
    | some session =>
      let ability_before := session.current_ability_estimate
      let st :=
        match ai_help_used, ai_help_details with
        | true, some (assistance_type, content) =>
          record_ai_assistance st session_id assistance_type question_id content
        | _, _ => st
      let upd := update_ability_estimate st session_id question_id is_correct
        response_time_seconds think_aloud_data
      let st := upd.1
      let ability_after := upd.2
      let st := modifySession st session_id (fun s =>
        { s with responses := s.responses ++
            [{ question_id := question_id, is_correct := is_correct,
               response_time := response_time_seconds,
               question_difficulty := (st.question_difficulties.lookup question_id).getD 0.5 }] })
      let st :=
        match think_aloud_data with
        | some ta => modifySession st session_id (fun s =>
            { s with think_aloud_responses := s.think_aloud_responses ++ [ta] })
        | none => st
      .ok (st,
        { correct := is_correct,
          ability_estimate_change := ability_after - ability_before,
          new_ability_estimate := ability_after,
          estimated_grade_level := determine_grade_level ability_after })

/-- Arguments of one `update_ability_estimate` call in a sequence of
    `SubmitAnswer`s against a fixed session. -/
structure SubmitCall where
  question_id : String
  is_correct : Bool
  response_time : ℚ
  think_aloud_data : Option String
  deriving Repr

/-- Run a sequence of `update_ability_estimate` calls, collecting every
    returned ability value. -/
def runSubmits (st : AdaptiveEngineState) (session_id : String) :
    List SubmitCall → AdaptiveEngineState × List ℚ
  | [] => (st, [])
  | c :: rest =>
    let upd := update_ability_estimate st session_id c.question_id c.is_correct
      c.response_time c.think_aloud_data
    let next := runSubmits upd.1 session_id rest
    (next.1, upd.2 :: next.2)

/-- Run `n` consecutive `get_next_adaptive_question` calls against a fixed
    candidate pool, collecting each call's outcome.  An erroring call
    leaves the state unchanged, as in the code. -/
noncomputable def runNextQuestions (st : AdaptiveEngineState) (session_id : String)
    (pool : List QuestionDescriptor) :
    ℕ → AdaptiveEngineState × List (Except ApiError (Option QuestionDescriptor))
  | 0 => (st, [])
  | Nat.succ n =>
    match get_next_adaptive_question st session_id pool with
    | .error e =>
      let next := runNextQuestions st session_id pool n
      (next.1, .error e :: next.2)
    | .ok (st1, r) =>
      let next := runNextQuestions st1 session_id pool n
      (next.1, .ok r :: next.2)

/-- A fresh diagnostic session at the default initial ability 0.5. -/
def sessionA : AdaptiveSession :=
  { session_id := "s1", user_id := "u1", subject := "math",
    current_ability_estimate := 0.5, questions_asked := [], responses := [],
    ai_help_usage := [], think_aloud_responses := [], session_type := "diagnostic" }

/-- Engine holding `sessionA` and no cached difficulties. -/
def stateA : AdaptiveEngineState :=
  { question_difficulties := [], session_data := [("s1", sessionA)] }

/-- Engine holding `sessionA` with the difficulty of `"q1"` cached. -/
def stateB : AdaptiveEngineState :=
  { question_difficulties := [("q1", 0.475)], session_data := [("s1", sessionA)] }

/-- A session that was issued exactly the question `"q1"`. -/
def sessionC : AdaptiveSession :=
  { sessionA with questions_asked := ["q1"] }

/-- Engine holding `sessionC`. -/
def stateC : AdaptiveEngineState :=
  { question_difficulties := [], session_data := [("s1", sessionC)] }

/-- A question bank holding only `"q2"`, which `sessionC` was never
    issued. -/
def dbC : List BankQuestion :=
  [{ id := "q2", correct_answer := "b" }]

/-- A question bank holding `"q1"`, the one question `sessionC` was
    issued. -/
def dbB : List BankQuestion :=
  [{ id := "q1", correct_answer := "a" }]

/-- The question of the spec's Scenario B: `application` complexity at
    grade 8 with no structural flags. -/
def appQuestion : QuestionDescriptor :=
  { id := "q1", complexity := .application, grade_level := .grade_8,
    requires_prior_knowledge := false, multi_step := false,
    abstract_reasoning := false }

/- ### Helper lemmas -/

lemma lookup_setSession_self (st : AdaptiveEngineState) (sid : String)
    (s : AdaptiveSession) :
    (setSession st sid s).session_data.lookup sid = some s := by
  simp [setSession, List.lookup]

lemma trajLoop_length (rs : List ResponseRecord) :
    ∀ est k, (trajLoop est k rs).length = rs.length := by
  induction rs with
  | nil => intro est k; simp [trajLoop]
  | cons r rest ih => intro est k; simp [trajLoop, ih]

lemma trajLoop_getElem (rs : List ResponseRecord) :
    ∀ est k i r, rs[i]? = some r →
    ∃ p, (trajLoop est k rs)[i]? = some p
      ∧ p.question_number = k + i + 1
      ∧ p.is_correct = r.is_correct
      ∧ p.question_difficulty = r.question_difficulty
      ∧ p.ability_estimate = (rs.take (i + 1)).foldl trajectoryStepSpec est := by
  induction rs with
  | nil => intro est k i r h; simp at h
  | cons r0 rest ih =>
    intro est k i r h
    cases i with
    | zero =>
      rw [List.getElem?_cons_zero, Option.some.injEq] at h
      subst h
      refine ⟨⟨k + 1, trajectoryStepSpec est r0, r0.question_difficulty, r0.is_correct⟩,
        ?_, by simp, rfl, rfl, ?_⟩
      · simp [trajLoop, trajectoryStepSpec]
      · simp
    | succ i =>
      rw [List.getElem?_cons_succ] at h
      obtain ⟨p, hp, h1, h2, h3, h4⟩ := ih (trajectoryStepSpec est r0) (k + 1) i r h
      refine ⟨p, ?_, by omega, h2, h3, ?_⟩
      · simpa [trajLoop, trajectoryStepSpec] using hp
      · rw [List.take_succ_cons, List.foldl_cons]
        exact h4

lemma trajectoryStepSpec_bounds (est : ℚ) (r : ResponseRecord)
    (h0 : 0 ≤ est) (h1 : est ≤ 1) :
    0 ≤ trajectoryStepSpec est r ∧ trajectoryStepSpec est r ≤ 1 := by
  unfold trajectoryStepSpec
  split_ifs
  · exact ⟨le_min_iff.mpr ⟨by norm_num, by linarith⟩,
      le_trans (min_le_left _ _) (by norm_num)⟩
  · exact ⟨le_max_iff.mpr (Or.inl (by norm_num)),
      max_le_iff.mpr ⟨by norm_num, by linarith⟩⟩

lemma trajLoop_mem_bounds (rs : List ResponseRecord) :
    ∀ est k, 0 ≤ est → est ≤ 1 →
    ∀ p ∈ trajLoop est k rs, 0 ≤ p.ability_estimate ∧ p.ability_estimate ≤ 1 := by
  induction rs with
  | nil => intro est k _ _ p hp; simp [trajLoop] at hp
  | cons r rest ih =>
    intro est k h0 h1 p hp
    have hb := trajectoryStepSpec_bounds est r h0 h1
    rw [show trajLoop est k (r :: rest) =
        { question_number := k + 1, ability_estimate := trajectoryStepSpec est r,
          question_difficulty := r.question_difficulty, is_correct := r.is_correct }
          :: trajLoop (trajectoryStepSpec est r) (k + 1) rest from by
          simp [trajLoop, trajectoryStepSpec]] at hp
    rcases List.mem_cons.mp hp with h | h
    · subst h; exact hb
    · exact ih (trajectoryStepSpec est r) (k + 1) hb.1 hb.2 p h

lemma findGrade_mem_and_range :
    ∀ (l : List GradeLevel) (a : ℚ) (g : GradeLevel),
      findGrade a l = some g → g ∈ l ∧ inGradeRange g a := by
  intro l
  induction l with
  | nil => intro a g h; simp [findGrade] at h
  | cons g0 rest ih =>
    intro a g h
    rw [findGrade] at h
    split_ifs at h with hg
    · rw [Option.some.injEq] at h
      subst h
      exact ⟨List.mem_cons_self _ _, hg⟩
    · obtain ⟨hm, hr⟩ := ih a g h
      exact ⟨List.mem_cons_of_mem _ hm, hr⟩

lemma findGrade_isSome :
    ∀ (l : List GradeLevel) (a : ℚ), (∃ g ∈ l, inGradeRange g a) →
      ∃ g', findGrade a l = some g' := by
  intro l
  induction l with
  | nil => intro a h; simp at h
  | cons g0 rest ih =>
    intro a h
    by_cases hg : inGradeRange g0 a
    · exact ⟨g0, by rw [findGrade, if_pos hg]⟩
    · obtain ⟨g, hm, hr⟩ := h
      rcases List.mem_cons.mp hm with rfl | hm
      · exact absurd hr hg
      · obtain ⟨g', hg'⟩ := ih a ⟨g, hm, hr⟩
        exact ⟨g', by rw [findGrade, if_neg hg]; exact hg'⟩

lemma gradeOrder_covers (a : ℚ) (h0 : 0 ≤ a) (h1 : a ≤ 1) :
    ∃ g ∈ gradeOrder, inGradeRange g a := by
  rcases le_or_lt a 0.1 with h | h
  · refine ⟨.kindergarten, by decide, ?_, ?_⟩ <;>
      simp only [grade_level_mapping] <;> linarith
  rcases le_or_lt a 0.15 with h' | h'
  · refine ⟨.grade_1, by decide, ?_, ?_⟩ <;>
      simp only [grade_level_mapping] <;> linarith
  rcases le_or_lt a 0.2 with h'' | h''
  · refine ⟨.grade_2, by decide, ?_, ?_⟩ <;>
      simp only [grade_level_mapping] <;> linarith
  rcases le_or_lt a 0.25 with h3 | h3
  · refine ⟨.grade_3, by decide, ?_, ?_⟩ <;>
      simp only [grade_level_mapping] <;> linarith
  rcases le_or_lt a 0.3 with h4 | h4
  · refine ⟨.grade_4, by decide, ?_, ?_⟩ <;>
      simp only [grade_level_mapping] <;> linarith
  rcases le_or_lt a 0.35 with h5 | h5
  · refine ⟨.grade_5, by decide, ?_, ?_⟩ <;>
      simp only [grade_level_mapping] <;> linarith
  rcases le_or_lt a 0.4 with h6 | h6
  · refine ⟨.grade_6, by decide, ?_, ?_⟩ <;>
      simp only [grade_level_mapping] <;> linarith
  rcases le_or_lt a 0.45 with h7 | h7
  · refine ⟨.grade_7, by decide, ?_, ?_⟩ <;>
      simp only [grade_level_mapping] <;> linarith
  rcases le_or_lt a 0.5 with h8 | h8
  · refine ⟨.grade_8, by decide, ?_, ?_⟩ <;>
      simp only [grade_level_mapping] <;> linarith
  rcases le_or_lt a 0.55 with h9 | h9
  · refine ⟨.grade_9, by decide, ?_, ?_⟩ <;>
      simp only [grade_level_mapping] <;> linarith
  rcases le_or_lt a 0.6 with h10 | h10
  · refine ⟨.grade_10, by decide, ?_, ?_⟩ <;>
      simp only [grade_level_mapping] <;> linarith
  rcases le_or_lt a 0.65 with h11 | h11
  · refine ⟨.grade_11, by decide, ?_, ?_⟩ <;>
      simp only [grade_level_mapping] <;> linarith
  rcases le_or_lt a 0.7 with h12 | h12
  · refine ⟨.grade_12, by decide, ?_, ?_⟩ <;>
      simp only [grade_level_mapping] <;> linarith
  rcases le_or_lt a 0.8 with h13 | h13
  · refine ⟨.undergraduate, by decide, ?_, ?_⟩ <;>
      simp only [grade_level_mapping] <;> linarith
  rcases le_or_lt a 0.9 with h14 | h14
  · refine ⟨.graduate, by decide, ?_, ?_⟩ <;>
      simp only [grade_level_mapping] <;> linarith
  rcases le_or_lt a 0.95 with h15 | h15
  · refine ⟨.doctoral, by decide, ?_, ?_⟩ <;>
      simp only [grade_level_mapping] <;> linarith
  · refine ⟨.postdoctoral, by decide, ?_, ?_⟩ <;>
      simp only [grade_level_mapping] <;> linarith

/- ### Claim theorems -/

/-- Claim C5: the computed difficulty equals
    `clamp(gradeMin + base*(gradeMax - gradeMin) + 0.10*[priorKnowledge]
    + 0.10*[multiStep] + 0.15*[abstractReasoning], 0, 1)`, and the Scenario B
    descriptor (application complexity, grade range (0.45, 0.5), no flags)
    gets difficulty 0.475. -/
theorem difficulty_matches_formula :
    (∀ q : QuestionDescriptor,
      calculate_question_difficulty q =
        min (max ((grade_level_mapping q.grade_level).1
          + base_difficulty q.complexity *
            ((grade_level_mapping q.grade_level).2 - (grade_level_mapping q.grade_level).1)
          + (if q.requires_prior_knowledge then 0.1 else 0)
          + (if q.multi_step then 0.1 else 0)
          + (if q.abstract_reasoning then 0.15 else 0)) 0.0) 1.0)
    ∧ calculate_question_difficulty appQuestion = 0.475 := by
  constructor
  · intro q
    simp only [calculate_question_difficulty]
    split_ifs <;> ring_nf
  · norm_num [calculate_question_difficulty, appQuestion, base_difficulty,
      grade_level_mapping, min_def, max_def]

/-- Claim C8: from ability 0.5, a correct answer on a question of cached
    difficulty 0.475 with latency 5 seconds and no think-aloud data returns
    exactly 0.5315. -/
theorem update_scenario_c :
    (update_ability_estimate stateB "s1" "q1" true 5 none).2 = 0.5315 := by
  norm_num [update_ability_estimate, stateB, sessionA, List.lookup,
    min_def, max_def]

/-- Claim C9 counterexample: the ability score 0.5 lies in the range of
    grade 8, of grade 9 and of the professional level at once, so the
    ranges are not pairwise disjoint and the containing bucket is not
    unique; `determine_grade_level` resolves the ambiguity by insertion
    order, returning grade 8. -/
theorem grade_ranges_overlap_at_half :
    inGradeRange .grade_8 0.5 ∧ inGradeRange .grade_9 0.5
    ∧ inGradeRange .professional 0.5
    ∧ GradeLevel.grade_8 ≠ GradeLevel.grade_9
    ∧ determine_grade_level 0.5 = .grade_8 := by
  refine ⟨⟨?_, ?_⟩, ⟨?_, ?_⟩, ⟨?_, ?_⟩, by decide, ?_⟩ <;>
    norm_num [inGradeRange, grade_level_mapping, determine_grade_level,
      findGrade, gradeOrder]

/-- Claim C9 (amended): the grade ranges are contiguous and cover [0,1]
    (every score in [0,1] has a containing bucket), and
    `determine_grade_level` returns the first containing bucket in table
    order; the buckets are not pairwise disjoint, so uniqueness fails (see
    the counterexample). -/
theorem grade_level_coverage_first_match (a : ℚ) (h0 : 0 ≤ a) (h1 : a ≤ 1) :
    ∃ g, findGrade a gradeOrder = some g
      ∧ determine_grade_level a = g ∧ inGradeRange g a := by
  obtain ⟨g, hfind⟩ := findGrade_isSome gradeOrder a (gradeOrder_covers a h0 h1)
  exact ⟨g, hfind, by simp [determine_grade_level, hfind],
    (findGrade_mem_and_range gradeOrder a g hfind).2⟩

/-- Witness for C9's amended theorem at the concrete score 0.5. -/
theorem grade_level_coverage_first_match_witness :
    ∃ g, findGrade 0.5 gradeOrder = some g
      ∧ determine_grade_level 0.5 = g ∧ inGradeRange g 0.5 :=
  grade_level_coverage_first_match 0.5 (by norm_num) (by norm_num)

/-- Claim C10: the learning trajectory has one entry per recorded response
    in order, depends only on the response log (never on the session's
    actual ability estimate), replays a simulated estimate that starts at
    0.5 and gains 0.05 per correct response (capped at 1) and loses 0.03
    per incorrect one (floored at 0), and every trajectory ability value
    lies in [0,1]. -/
theorem learning_trajectory_spec (s : AdaptiveSession) :
    (_calculate_learning_trajectory s).length = s.responses.length
    ∧ (∀ t : AdaptiveSession, t.responses = s.responses →
        _calculate_learning_trajectory t = _calculate_learning_trajectory s)
    ∧ (∀ i r, s.responses[i]? = some r →
        ∃ p, (_calculate_learning_trajectory s)[i]? = some p
          ∧ p.question_number = i + 1
          ∧ p.is_correct = r.is_correct
          ∧ p.question_difficulty = r.question_difficulty
          ∧ p.ability_estimate = (s.responses.take (i + 1)).foldl trajectoryStepSpec 0.5)
    ∧ (∀ p ∈ _calculate_learning_trajectory s,
        0 ≤ p.ability_estimate ∧ p.ability_estimate ≤ 1) := by
  refine ⟨trajLoop_length s.responses 0.5 0, ?_, ?_, ?_⟩
  · intro t ht
    simp [_calculate_learning_trajectory, ht]
  · intro i r h
    obtain ⟨p, hp, h1, h2, h3, h4⟩ := trajLoop_getElem s.responses 0.5 0 i r h
    exact ⟨p, hp, by omega, h2, h3, h4⟩
  · exact trajLoop_mem_bounds s.responses 0.5 0 (by norm_num) (by norm_num)

lemma quality_foldl_nonneg :
    ∀ (l : List String) (hay : List Char) (acc : ℚ), 0 ≤ acc →
      0 ≤ l.foldl (fun acc ind => if containsSub ind.toList hay then acc + 0.1 else acc) acc := by
  intro l
  induction l with
  | nil => intro hay acc h; simpa using h
  | cons x xs ih =>
    intro hay acc h
    rw [List.foldl_cons]
    exact ih hay _ (by split_ifs <;> linarith)

lemma assess_nonneg (t : String) : 0 ≤ _assess_reasoning_quality t := by
  simp only [_assess_reasoning_quality]
  rw [le_min_iff]
  refine ⟨?_, by norm_num⟩
  split_ifs <;>
    linarith [quality_foldl_nonneg indicators t.toLower.toList 0 le_rfl]

lemma update_ability_estimate_eq (st : AdaptiveEngineState) (sid qid : String)
    (c : Bool) (rt : ℚ) (ta : Option String) (s : AdaptiveSession)
    (hs : st.session_data.lookup sid = some s) :
    update_ability_estimate st sid qid c rt ta =
      (setSession st sid
        { s with
          current_ability_estimate :=
            max 0.0 (min 1.0 (s.current_ability_estimate + updAdj st qid c rt ta s)) },
       max 0.0 (min 1.0 (s.current_ability_estimate + updAdj st qid c rt ta s))) := by
  simp only [update_ability_estimate, updAdj, hs]

lemma update_ability_estimate_some (st : AdaptiveEngineState) (sid qid : String)
    (c : Bool) (rt : ℚ) (ta : Option String) (s : AdaptiveSession)
    (hs : st.session_data.lookup sid = some s) :
    ∃ a, update_ability_estimate st sid qid c rt ta
        = (setSession st sid { s with current_ability_estimate := a }, a)
      ∧ 0 ≤ a ∧ a ≤ 1 := by
  refine ⟨_, update_ability_estimate_eq st sid qid c rt ta s hs, ?_, ?_⟩
  · exact le_max_iff.mpr (Or.inl (by norm_num))
  · exact max_le_iff.mpr ⟨by norm_num, le_trans (min_le_left _ _) (by norm_num)⟩

lemma wrap_nonneg (rt : ℚ) (ta : Option String) (x : ℚ) (hx : 0 ≤ x) :
    0 ≤ (match ta with
         | some t => (if rt < 10 then x * 1.2 else if rt > 60 then x * 0.8 else x)
             * (0.8 + 0.4 * _assess_reasoning_quality t)
         | none => if rt < 10 then x * 1.2 else if rt > 60 then x * 0.8 else x) := by
  have hy : 0 ≤ (if rt < 10 then x * 1.2 else if rt > 60 then x * 0.8 else x) := by
    split_ifs <;> linarith
  cases ta with
  | none => exact hy
  | some t =>
    have hq := assess_nonneg t
    have hfac : (0:ℚ) ≤ 0.8 + 0.4 * _assess_reasoning_quality t := by linarith
    exact mul_nonneg hy hfac

lemma wrap_nonpos (rt : ℚ) (ta : Option String) (x : ℚ) (hx : x ≤ 0) :
    (match ta with
     | some t => (if rt < 10 then x * 1.2 else if rt > 60 then x * 0.8 else x)
         * (0.8 + 0.4 * _assess_reasoning_quality t)
     | none => if rt < 10 then x * 1.2 else if rt > 60 then x * 0.8 else x) ≤ 0 := by
  have hy : (if rt < 10 then x * 1.2 else if rt > 60 then x * 0.8 else x) ≤ 0 := by
    split_ifs <;> linarith
  cases ta with
  | none => exact hy
  | some t =>
    have hq := assess_nonneg t
    have hfac : (0:ℚ) ≤ 0.8 + 0.4 * _assess_reasoning_quality t := by linarith
    nlinarith [mul_nonneg (neg_nonneg.mpr hy) hfac]

lemma updAdj_true_nonneg (st : AdaptiveEngineState) (qid : String) (rt : ℚ)
    (ta : Option String) (s : AdaptiveSession)
    (ha1 : s.current_ability_estimate ≤ 1)
    (hd1 : (st.question_difficulties.lookup qid).getD 0.5 ≤ 1) :
    0 ≤ updAdj st qid true rt ta s := by
  have hbase : 0 ≤ 0.1 * (1 - s.current_ability_estimate) *
      (1 - (st.question_difficulties.lookup qid).getD 0.5) :=
    mul_nonneg (mul_nonneg (by norm_num) (by linarith)) (by linarith)
  simpa only [updAdj, reduceIte] using wrap_nonneg rt ta _ hbase

lemma updAdj_false_nonpos (st : AdaptiveEngineState) (qid : String) (rt : ℚ)
    (ta : Option String) (s : AdaptiveSession)
    (ha0 : 0 ≤ s.current_ability_estimate)
    (hd0 : 0 ≤ (st.question_difficulties.lookup qid).getD 0.5) :
    updAdj st qid false rt ta s ≤ 0 := by
  have hbase : -(0.1 * s.current_ability_estimate *
      ((st.question_difficulties.lookup qid).getD 0.5)) ≤ 0 := by
    have := mul_nonneg (mul_nonneg (by norm_num : (0:ℚ) ≤ 0.1) ha0) hd0
    linarith
  simpa only [updAdj, reduceIte] using wrap_nonpos rt ta _ hbase

lemma runSubmits_bounds (sid : String) :
    ∀ (calls : List SubmitCall) (st : AdaptiveEngineState) (s : AdaptiveSession),
      st.session_data.lookup sid = some s →
      ∀ a ∈ (runSubmits st sid calls).2, 0 ≤ a ∧ a ≤ 1 := by
  intro calls
  induction calls with
  | nil => intro st s hs a ha; simp [runSubmits] at ha
  | cons c rest ih =>
    intro st s hs a ha
    obtain ⟨v, hv, h0, h1⟩ := update_ability_estimate_some st sid c.question_id
      c.is_correct c.response_time c.think_aloud_data s hs
    rw [runSubmits] at ha
    simp only [hv] at ha
    rcases List.mem_cons.mp ha with rfl | h
    · exact ⟨h0, h1⟩
    · exact ih _ _ (lookup_setSession_self st sid _) a h

/-- Claim C1: for any sequence of `update_ability_estimate` calls against
    an existing session — any correctness flags, response times and
    think-aloud inputs — every returned ability lies in [0,1], and each
    call stores the value it returns as the session's current ability
    estimate. -/
theorem submit_ability_bounds (st : AdaptiveEngineState) (sid : String)
    (calls : List SubmitCall) (s : AdaptiveSession)
    (hs : st.session_data.lookup sid = some s) :
    (∀ a ∈ (runSubmits st sid calls).2, 0 ≤ a ∧ a ≤ 1)
    ∧ ∀ qid c rt ta, ∃ s',
        (update_ability_estimate st sid qid c rt ta).1.session_data.lookup sid = some s'
        ∧ s'.current_ability_estimate = (update_ability_estimate st sid qid c rt ta).2 := by
  refine ⟨runSubmits_bounds sid calls st s hs, ?_⟩
  intro qid c rt ta
  obtain ⟨v, hv, _, _⟩ := update_ability_estimate_some st sid qid c rt ta s hs
  refine ⟨{ s with current_ability_estimate := v }, ?_, ?_⟩
  · rw [hv]
    exact lookup_setSession_self st sid _
  · rw [hv]

/-- Witness for C1: a two-call sequence on a fresh session. -/
theorem submit_ability_bounds_witness :
    (∀ a ∈ (runSubmits stateA "s1"
        [⟨"q1", true, 5, none⟩, ⟨"q1", false, 70, none⟩]).2, 0 ≤ a ∧ a ≤ 1)
    ∧ ∀ qid c rt ta, ∃ s',
        (update_ability_estimate stateA "s1" qid c rt ta).1.session_data.lookup "s1" = some s'
        ∧ s'.current_ability_estimate = (update_ability_estimate stateA "s1" qid c rt ta).2 :=
  submit_ability_bounds stateA "s1" [⟨"q1", true, 5, none⟩, ⟨"q1", false, 70, none⟩]
    sessionA (by simp [stateA, List.lookup])

/-- Claim C4: with ability and looked-up difficulty in [0,1], any response
    time and any optional think-aloud input, a correct answer never
    decreases the ability estimate and an incorrect answer never increases
    it. -/
theorem update_monotone_direction (st : AdaptiveEngineState) (sid qid : String)
    (rt : ℚ) (ta : Option String) (s : AdaptiveSession)
    (hs : st.session_data.lookup sid = some s)
    (ha0 : 0 ≤ s.current_ability_estimate) (ha1 : s.current_ability_estimate ≤ 1)
    (hd0 : 0 ≤ (st.question_difficulties.lookup qid).getD 0.5)
    (hd1 : (st.question_difficulties.lookup qid).getD 0.5 ≤ 1) :
    s.current_ability_estimate ≤ (update_ability_estimate st sid qid true rt ta).2
    ∧ (update_ability_estimate st sid qid false rt ta).2 ≤ s.current_ability_estimate := by
  constructor
  · rw [update_ability_estimate_eq st sid qid true rt ta s hs]
    show s.current_ability_estimate ≤
      max 0.0 (min 1.0 (s.current_ability_estimate + updAdj st qid true rt ta s))
    have hadj := updAdj_true_nonneg st qid rt ta s ha1 hd1
    exact le_trans (le_min_iff.mpr ⟨by linarith, by linarith⟩) (le_max_right _ _)
  · rw [update_ability_estimate_eq st sid qid false rt ta s hs]
    show max 0.0 (min 1.0 (s.current_ability_estimate + updAdj st qid false rt ta s))
      ≤ s.current_ability_estimate
    have hadj := updAdj_false_nonpos st qid rt ta s ha0 hd0
    exact max_le_iff.mpr ⟨by linarith, le_trans (min_le_right _ _) (by linarith)⟩

/-- Witness for C4 at ability 0.5 and cached difficulty 0.475. -/
theorem update_monotone_direction_witness :
    sessionA.current_ability_estimate ≤ (update_ability_estimate stateB "s1" "q1" true 7 none).2
    ∧ (update_ability_estimate stateB "s1" "q1" false 7 none).2
        ≤ sessionA.current_ability_estimate :=
  update_monotone_direction stateB "s1" "q1" 7 none sessionA
    (by simp [stateB, List.lookup])
    (by norm_num [sessionA]) (by norm_num [sessionA])
    (by norm_num [stateB, List.lookup]) (by norm_num [stateB, List.lookup])

lemma _calculate_information_pos (a d : ℚ) : 0 < _calculate_information a d := by
  have he : (0:ℝ) < Real.exp (-((a:ℝ) - (d:ℝ)) * 1.7) := Real.exp_pos _
  have h1 : (0:ℝ) < 1 + Real.exp (-((a:ℝ) - (d:ℝ)) * 1.7) := by linarith
  have hp0 : (0:ℝ) < 1 / (1 + Real.exp (-((a:ℝ) - (d:ℝ)) * 1.7)) := by positivity
  have hp1 : 1 / (1 + Real.exp (-((a:ℝ) - (d:ℝ)) * 1.7)) < 1 := by
    rw [div_lt_one h1]; linarith
  simp only [_calculate_information]
  exact mul_pos hp0 (by linarith)

lemma questionInformation_pos (a : ℚ) (q : QuestionDescriptor) :
    0 < questionInformation a q :=
  _calculate_information_pos a (calculate_question_difficulty q)

lemma selectLoop_eq_filter (a : ℚ) (asked : List String) :
    ∀ (pool : List QuestionDescriptor) (acc : Option QuestionDescriptor × ℝ),
      selectLoop a asked pool acc =
        selectLoop a [] (pool.filter (fun q => decide (q.id ∉ asked))) acc := by
  intro pool
  induction pool with
  | nil => intro acc; simp [selectLoop]
  | cons q rest ih =>
    intro acc
    obtain ⟨best, m⟩ := acc
    by_cases hq : q.id ∈ asked
    · rw [show List.filter (fun r => decide (r.id ∉ asked)) (q :: rest) =
          List.filter (fun r => decide (r.id ∉ asked)) rest from by simp [hq]]
      rw [show selectLoop a asked (q :: rest) (best, m) =
          selectLoop a asked rest (best, m) from by simp [selectLoop, hq]]
      exact ih (best, m)
    · rw [show List.filter (fun r => decide (r.id ∉ asked)) (q :: rest) =
          q :: List.filter (fun r => decide (r.id ∉ asked)) rest from by simp [hq]]
      by_cases hinfo : questionInformation a q > m
      · rw [show selectLoop a asked (q :: rest) (best, m) =
            selectLoop a asked rest (some q, questionInformation a q) from by
              simp [selectLoop, hq, hinfo]]
        rw [show selectLoop a [] (q :: List.filter (fun r => decide (r.id ∉ asked)) rest)
              (best, m) =
            selectLoop a [] (List.filter (fun r => decide (r.id ∉ asked)) rest)
              (some q, questionInformation a q) from by
              simp [selectLoop, hinfo]]
        exact ih (some q, questionInformation a q)
      · rw [show selectLoop a asked (q :: rest) (best, m) =
            selectLoop a asked rest (best, m) from by simp [selectLoop, hq, hinfo]]
        rw [show selectLoop a [] (q :: List.filter (fun r => decide (r.id ∉ asked)) rest)
              (best, m) =
            selectLoop a [] (List.filter (fun r => decide (r.id ∉ asked)) rest)
              (best, m) from by simp [selectLoop, hinfo]]
        exact ih (best, m)

lemma selectLoop_inv (a : ℚ) :
    ∀ (pool : List QuestionDescriptor) (b : QuestionDescriptor) (m : ℝ),
      (selectLoop a [] pool (some b, m) = (some b, m)
        ∧ ∀ r ∈ pool, questionInformation a r ≤ m)
      ∨ (∃ l1 c l2, pool = l1 ++ c :: l2
          ∧ selectLoop a [] pool (some b, m) = (some c, questionInformation a c)
          ∧ m < questionInformation a c
          ∧ (∀ r ∈ l1, questionInformation a r < questionInformation a c)
          ∧ (∀ r ∈ l2, questionInformation a r ≤ questionInformation a c)) := by
  intro pool
  induction pool with
  | nil => intro b m; left; exact ⟨by simp [selectLoop], by simp⟩
  | cons q rest ih =>
    intro b m
    by_cases hcmp : questionInformation a q > m
    · have heq : selectLoop a [] (q :: rest) (some b, m) =
          selectLoop a [] rest (some q, questionInformation a q) := by
        simp [selectLoop, hcmp]
      rcases ih q (questionInformation a q) with ⟨h1, h2⟩ |
        ⟨l1, c, l2, hsplit, hres, hlt, hall1, hall2⟩
      · right
        exact ⟨[], q, rest, rfl, by rw [heq, h1], hcmp, by simp, h2⟩
      · right
        refine ⟨q :: l1, c, l2, by rw [hsplit, List.cons_append], by rw [heq, hres],
          lt_trans hcmp hlt, ?_, hall2⟩
        intro r hr
        rcases List.mem_cons.mp hr with rfl | hr
        · exact hlt
        · exact hall1 r hr
    · have hle : questionInformation a q ≤ m := not_lt.mp hcmp
      have heq : selectLoop a [] (q :: rest) (some b, m) =
          selectLoop a [] rest (some b, m) := by
        simp [selectLoop, hcmp]
      rcases ih b m with ⟨h1, h2⟩ | ⟨l1, c, l2, hsplit, hres, hlt, hall1, hall2⟩
      · left
        refine ⟨by rw [heq, h1], ?_⟩
        intro r hr
        rcases List.mem_cons.mp hr with rfl | hr
        · exact hle
        · exact h2 r hr
      · right
        refine ⟨q :: l1, c, l2, by rw [hsplit, List.cons_append], by rw [heq, hres], hlt, ?_, hall2⟩
        intro r hr
        rcases List.mem_cons.mp hr with rfl | hr
        · exact lt_of_le_of_lt hle hlt
        · exact hall1 r hr

lemma selectLoop_start (a : ℚ) (pool : List QuestionDescriptor) :
    (pool = [] ∧ selectLoop a [] pool (none, 0) = (none, 0))
    ∨ (∃ l1 c l2, pool = l1 ++ c :: l2
        ∧ selectLoop a [] pool (none, 0) = (some c, questionInformation a c)
        ∧ (∀ r ∈ l1, questionInformation a r < questionInformation a c)
        ∧ (∀ r ∈ l2, questionInformation a r ≤ questionInformation a c)) := by
  cases pool with
  | nil => left; exact ⟨rfl, by simp [selectLoop]⟩
  | cons q rest =>
    right
    have hpos : (0:ℝ) < questionInformation a q := questionInformation_pos a q
    have heq : selectLoop a [] (q :: rest) (none, 0) =
        selectLoop a [] rest (some q, questionInformation a q) := by
      simp [selectLoop, hpos]
    rcases selectLoop_inv a rest q (questionInformation a q) with ⟨h1, h2⟩ |
      ⟨l1, c, l2, hsplit, hres, hlt, hall1, hall2⟩
    · exact ⟨[], q, rest, rfl, by rw [heq, h1], by simp, h2⟩
    · refine ⟨q :: l1, c, l2, by rw [hsplit, List.cons_append], by rw [heq, hres], ?_, hall2⟩
      intro r hr
      rcases List.mem_cons.mp hr with rfl | hr
      · exact hlt
      · exact hall1 r hr

/-- Claim C6: for an existing session, `select_next_question` returns the
    first candidate (in pool order) whose information value `p*(1-p)` is
    maximal over the candidates not yet asked — every earlier remaining
    candidate has strictly smaller information, every later one at most as
    much — and it returns `none` exactly when the filtered pool is
    empty. -/
theorem select_next_question_first_max (st : AdaptiveEngineState) (sid : String)
    (pool : List QuestionDescriptor) (s : AdaptiveSession)
    (hs : st.session_data.lookup sid = some s) :
    (select_next_question st sid pool = none
      ↔ pool.filter (fun q => decide (q.id ∉ s.questions_asked)) = [])
    ∧ ∀ q, select_next_question st sid pool = some q →
        ∃ l1 l2, pool.filter (fun q => decide (q.id ∉ s.questions_asked)) = l1 ++ q :: l2
          ∧ (∀ r ∈ l1, questionInformation s.current_ability_estimate r
              < questionInformation s.current_ability_estimate q)
          ∧ (∀ r ∈ l2, questionInformation s.current_ability_estimate r
              ≤ questionInformation s.current_ability_estimate q) := by
  have hsel : select_next_question st sid pool =
      (selectLoop s.current_ability_estimate []
        (pool.filter (fun q => decide (q.id ∉ s.questions_asked))) (none, 0)).1 := by
    simp only [select_next_question, hs]
    rw [selectLoop_eq_filter]
  rcases selectLoop_start s.current_ability_estimate
      (pool.filter (fun q => decide (q.id ∉ s.questions_asked))) with
    ⟨hF, hres⟩ | ⟨l1, c, l2, hsplit, hres, h1, h2⟩
  · constructor
    · rw [hsel, hres]
      exact iff_of_true rfl hF
    · intro q hq
      rw [hsel, hres] at hq
      simp at hq
  · constructor
    · rw [hsel, hres, hsplit]
      simp
    · intro q hq
      rw [hsel, hres] at hq
      simp only [Option.some.injEq] at hq
      subst hq
      exact ⟨l1, l2, hsplit, h1, h2⟩

/-- Witness for C6: a fresh session and a one-question pool. -/
theorem select_next_question_first_max_witness :
    (select_next_question stateA "s1" [appQuestion] = none
      ↔ [appQuestion].filter (fun q => decide (q.id ∉ sessionA.questions_asked)) = [])
    ∧ ∀ q, select_next_question stateA "s1" [appQuestion] = some q →
        ∃ l1 l2, [appQuestion].filter (fun q => decide (q.id ∉ sessionA.questions_asked))
            = l1 ++ q :: l2
          ∧ (∀ r ∈ l1, questionInformation sessionA.current_ability_estimate r
              < questionInformation sessionA.current_ability_estimate q)
          ∧ (∀ r ∈ l2, questionInformation sessionA.current_ability_estimate r
              ≤ questionInformation sessionA.current_ability_estimate q) :=
  select_next_question_first_max stateA "s1" [appQuestion] sessionA
    (by simp [stateA, List.lookup])

lemma select_next_some_not_asked (st : AdaptiveEngineState) (sid : String)
    (pool : List QuestionDescriptor) (q : QuestionDescriptor) (s : AdaptiveSession)
    (hs : st.session_data.lookup sid = some s)
    (hsel : select_next_question st sid pool = some q) :
    q.id ∉ s.questions_asked := by
  simp only [select_next_question, hs] at hsel
  rw [selectLoop_eq_filter] at hsel
  rcases selectLoop_start s.current_ability_estimate
      (pool.filter (fun r => decide (r.id ∉ s.questions_asked))) with
    ⟨hF, hres⟩ | ⟨l1, c, l2, hsplit, hres, _, _⟩
  · rw [hres] at hsel
    simp at hsel
  · rw [hres] at hsel
    simp only [Option.some.injEq] at hsel
    subst hsel
    have hmem : c ∈ pool.filter (fun r => decide (r.id ∉ s.questions_asked)) := by
      rw [hsplit]
      exact List.mem_append.mpr (Or.inr (List.mem_cons_self _ _))
    exact of_decide_eq_true (List.mem_filter.mp hmem).2

lemma get_next_ok_some (st st' : AdaptiveEngineState) (sid : String)
    (pool : List QuestionDescriptor) (q : QuestionDescriptor) (s : AdaptiveSession)
    (hs : st.session_data.lookup sid = some s)
    (h : get_next_adaptive_question st sid pool = .ok (st', some q)) :
    q.id ∉ s.questions_asked
    ∧ st'.session_data.lookup sid =
        some { s with questions_asked := s.questions_asked ++ [q.id] } := by
  simp only [get_next_adaptive_question, hs] at h
  cases hsel : select_next_question st sid pool with
  | none =>
    rw [hsel] at h
    simp at h
  | some q' =>
    rw [hsel] at h
    simp only [Except.ok.injEq, Prod.mk.injEq, Option.some.injEq] at h
    obtain ⟨hst, hq⟩ := h
    subst hq
    refine ⟨select_next_some_not_asked st sid pool q' s hs hsel, ?_⟩
    rw [← hst]
    exact lookup_setSession_self _ sid _

lemma runNext_all_ok (sid : String) (pool : List QuestionDescriptor) :
    ∀ (qs : List QuestionDescriptor) (st : AdaptiveEngineState) (s : AdaptiveSession),
      st.session_data.lookup sid = some s →
      (runNextQuestions st sid pool qs.length).2 = qs.map (fun q => Except.ok (some q)) →
      ∃ s', (runNextQuestions st sid pool qs.length).1.session_data.lookup sid = some s'
        ∧ s'.questions_asked = s.questions_asked ++ qs.map (fun q => q.id)
        ∧ (s.questions_asked.Nodup → s'.questions_asked.Nodup) := by
  intro qs
  induction qs with
  | nil =>
    intro st s hs _
    exact ⟨s, by simpa [runNextQuestions] using hs, by simp, fun h => h⟩
  | cons q qs ih =>
    intro st s hs hres
    rw [show (q :: qs).length = qs.length + 1 from rfl] at hres ⊢
    cases hg : get_next_adaptive_question st sid pool with
    | error e =>
      simp only [runNextQuestions, hg] at hres
      simp at hres
    | ok pr =>
      obtain ⟨st1, r⟩ := pr
      simp only [runNextQuestions, hg] at hres ⊢
      simp only [List.map_cons, List.cons.injEq, Except.ok.injEq] at hres
      obtain ⟨hr, htail⟩ := hres
      subst hr
      obtain ⟨hnotin, hlook1⟩ := get_next_ok_some st st1 sid pool q s hs hg
      obtain ⟨s', h1, h2, h3⟩ := ih st1 _ hlook1 htail
      refine ⟨s', h1, ?_, ?_⟩
      · rw [h2]
        simp
      · intro hnd
        apply h3
        simp only [List.nodup_append, List.nodup_singleton, true_and]
        exact ⟨hnd, by simpa [List.disjoint_singleton] using hnotin⟩

/-- Claim C2: starting from a session with no asked questions, after `N`
    successful `NextQuestion` calls against a duplicate-free pool the
    session's asked-question list holds exactly the `N` selected ids, in
    order and without duplicates, and a further call never returns an id
    already in that list. -/
theorem next_question_monotonic_exclusion (st : AdaptiveEngineState) (sid : String)
    (pool qs : List QuestionDescriptor) (s : AdaptiveSession)
    (hs : st.session_data.lookup sid = some s)
    (hinit : s.questions_asked = [])
    (_hpool : (pool.map (fun q => q.id)).Nodup)
    (hok : (runNextQuestions st sid pool qs.length).2 =
      qs.map (fun q => Except.ok (some q))) :
    ∃ s', (runNextQuestions st sid pool qs.length).1.session_data.lookup sid = some s'
      ∧ s'.questions_asked = qs.map (fun q => q.id)
      ∧ s'.questions_asked.length = qs.length
      ∧ s'.questions_asked.Nodup
      ∧ ∀ st'' r,
          get_next_adaptive_question (runNextQuestions st sid pool qs.length).1 sid pool
            = .ok (st'', some r) → r.id ∉ s'.questions_asked := by
  obtain ⟨s', h1, h2, h3⟩ := runNext_all_ok sid pool qs st s hs hok
  rw [hinit, List.nil_append] at h2
  refine ⟨s', h1, h2, by rw [h2]; simp, ?_, ?_⟩
  · exact h3 (by rw [hinit]; exact List.nodup_nil)
  · intro st'' r hg
    exact (get_next_ok_some _ st'' sid pool r s' h1 hg).1

/-- Witness for C2: one successful call on a fresh session with a
    one-question pool. -/
theorem next_question_monotonic_exclusion_witness :
    ∃ s', (runNextQuestions stateA "s1" [appQuestion]
        ([appQuestion] : List QuestionDescriptor).length).1.session_data.lookup "s1" = some s'
      ∧ s'.questions_asked = ([appQuestion] : List QuestionDescriptor).map (fun q => q.id)
      ∧ s'.questions_asked.length = ([appQuestion] : List QuestionDescriptor).length
      ∧ s'.questions_asked.Nodup
      ∧ ∀ st'' r,
          get_next_adaptive_question (runNextQuestions stateA "s1" [appQuestion]
              ([appQuestion] : List QuestionDescriptor).length).1 "s1" [appQuestion]
            = .ok (st'', some r) → r.id ∉ s'.questions_asked := by
  have hlook : stateA.session_data.lookup "s1" = some sessionA := by
    simp [stateA, List.lookup]
  have hpos := questionInformation_pos sessionA.current_ability_estimate appQuestion
  have hsel : select_next_question stateA "s1" [appQuestion] = some appQuestion := by
    simp only [select_next_question, hlook]
    rw [show sessionA.questions_asked = ([] : List String) from rfl]
    simp only [selectLoop, List.not_mem_nil, if_false, if_pos hpos]
  obtain ⟨st1, hget⟩ : ∃ st1,
      get_next_adaptive_question stateA "s1" [appQuestion] = .ok (st1, some appQuestion) :=
    ⟨_, by simp only [get_next_adaptive_question, hlook, hsel]; rfl⟩
  have hok : (runNextQuestions stateA "s1" [appQuestion]
      ([appQuestion] : List QuestionDescriptor).length).2 =
      ([appQuestion] : List QuestionDescriptor).map (fun q => Except.ok (some q)) := by
    rw [show ([appQuestion] : List QuestionDescriptor).length = 0 + 1 from rfl]
    simp only [runNextQuestions, hget, List.map_cons, List.map_nil]
  exact next_question_monotonic_exclusion stateA "s1" [appQuestion] [appQuestion] sessionA
    hlook rfl (by simp) hok

lemma modifySession_eq (st : AdaptiveEngineState) (sid : String)
    (f : AdaptiveSession → AdaptiveSession) (s : AdaptiveSession)
    (hs : st.session_data.lookup sid = some s) :
    modifySession st sid f = setSession st sid (f s) := by
  simp [modifySession, hs]

lemma record_ai_eq (st : AdaptiveEngineState) (sid t qid c : String)
    (s : AdaptiveSession) (hs : st.session_data.lookup sid = some s) :
    record_ai_assistance st sid t qid c =
      setSession st sid { s with ai_help_usage := s.ai_help_usage ++ [(qid, t, c)] } := by
  simp [record_ai_assistance, modifySession, hs]

lemma submit_ok_spec (st : AdaptiveEngineState) (db : List BankQuestion)
    (sid qid ans : String) (rt : ℚ) (ta : Option String) (ah : Bool)
    (ad : Option (String × String)) (s : AdaptiveSession) (q : BankQuestion)
    (hs : st.session_data.lookup sid = some s)
    (hq : db.find? (fun x => x.id == qid) = some q) :
    ∃ st' res s',
      submit_adaptive_answer st db sid qid ans rt ta ah ad = .ok (st', res)
      ∧ st'.session_data.lookup sid = some s'
      ∧ s'.responses = s.responses ++
          [{ question_id := qid,
             is_correct := ans.toLower.trim == q.correct_answer.toLower.trim,
             response_time := rt,
             question_difficulty := (st.question_difficulties.lookup qid).getD 0.5 }]
      ∧ res.correct = (ans.toLower.trim == q.correct_answer.toLower.trim)
      ∧ res.new_ability_estimate = s'.current_ability_estimate
      ∧ res.ability_estimate_change =
          res.new_ability_estimate - s.current_ability_estimate
      ∧ (ah = false → res.new_ability_estimate =
          (update_ability_estimate st sid qid
            (ans.toLower.trim == q.correct_answer.toLower.trim) rt ta).2) := by
  simp only [submit_adaptive_answer, hq, hs]
  cases ah with
  | false =>
    dsimp only
    rw [update_ability_estimate_eq st sid qid _ rt ta s hs]
    dsimp only
    cases ta with
    | none =>
      dsimp only
      rw [modifySession_eq _ sid _ _ (lookup_setSession_self _ sid _)]
      refine ⟨_, _, _, rfl, lookup_setSession_self _ sid _, rfl, rfl, rfl, rfl, fun _ => ?_⟩
      rfl
    | some t =>
      dsimp only
      rw [modifySession_eq _ sid _ _ (lookup_setSession_self _ sid _)]
      rw [modifySession_eq _ sid _ _ (lookup_setSession_self _ sid _)]
      refine ⟨_, _, _, rfl, lookup_setSession_self _ sid _, rfl, rfl, rfl, rfl, fun _ => ?_⟩
      rfl
  | true =>
    cases ad with
    | none =>
      dsimp only
      rw [update_ability_estimate_eq st sid qid _ rt ta s hs]
      dsimp only
      cases ta with
      | none =>
        dsimp only
        rw [modifySession_eq _ sid _ _ (lookup_setSession_self _ sid _)]
        exact ⟨_, _, _, rfl, lookup_setSession_self _ sid _, rfl, rfl, rfl, rfl, fun h => nomatch h⟩
      | some t =>
        dsimp only
        rw [modifySession_eq _ sid _ _ (lookup_setSession_self _ sid _)]
        rw [modifySession_eq _ sid _ _ (lookup_setSession_self _ sid _)]
        exact ⟨_, _, _, rfl, lookup_setSession_self _ sid _, rfl, rfl, rfl, rfl, fun h => nomatch h⟩
    | some pr =>
      obtain ⟨t0, c0⟩ := pr
      dsimp only
      rw [record_ai_eq st sid t0 qid c0 s hs]
      rw [update_ability_estimate_eq _ sid qid _ rt ta _ (lookup_setSession_self _ sid _)]
      dsimp only
      cases ta with
      | none =>
        dsimp only
        rw [modifySession_eq _ sid _ _ (lookup_setSession_self _ sid _)]
        exact ⟨_, _, _, rfl, lookup_setSession_self _ sid _, rfl, rfl, rfl, rfl, fun h => nomatch h⟩
      | some t =>
        dsimp only
        rw [modifySession_eq _ sid _ _ (lookup_setSession_self _ sid _)]
        rw [modifySession_eq _ sid _ _ (lookup_setSession_self _ sid _)]
        exact ⟨_, _, _, rfl, lookup_setSession_self _ sid _, rfl, rfl, rfl, rfl, fun h => nomatch h⟩

/-- Claim C7: every successful `SubmitAnswer` appends exactly one response
    record (question id, correctness, latency, the difficulty cached for
    the question) to the session's response log, leaving the existing
    records untouched, and returns the new ability together with its delta
    from the previous ability.  The optional reasoning input is kept in the
    separate `think_aloud_responses` list. -/
theorem submit_answer_appends_one_record (st : AdaptiveEngineState)
    (db : List BankQuestion) (sid qid ans : String) (rt : ℚ) (ta : Option String)
    (ah : Bool) (ad : Option (String × String)) (s : AdaptiveSession)
    (q : BankQuestion) (hs : st.session_data.lookup sid = some s)
    (hq : db.find? (fun x => x.id == qid) = some q) :
    ∃ st' res s',
      submit_adaptive_answer st db sid qid ans rt ta ah ad = .ok (st', res)
      ∧ st'.session_data.lookup sid = some s'
      ∧ s'.responses = s.responses ++
          [{ question_id := qid,
             is_correct := ans.toLower.trim == q.correct_answer.toLower.trim,
             response_time := rt,
             question_difficulty := (st.question_difficulties.lookup qid).getD 0.5 }]
      ∧ res.correct = (ans.toLower.trim == q.correct_answer.toLower.trim)
      ∧ res.new_ability_estimate = s'.current_ability_estimate
      ∧ res.ability_estimate_change =
          res.new_ability_estimate - s.current_ability_estimate := by
  obtain ⟨st', res, s', h1, h2, h3, h4, h5, h6, _⟩ :=
    submit_ok_spec st db sid qid ans rt ta ah ad s q hs hq
  exact ⟨st', res, s', h1, h2, h3, h4, h5, h6⟩

/-- Witness for C7: a concrete correct submission. -/
theorem submit_answer_appends_one_record_witness :
    ∃ st' res s',
      submit_adaptive_answer stateB dbB "s1" "q1" "a" 5 none false none = .ok (st', res)
      ∧ st'.session_data.lookup "s1" = some s'
      ∧ s'.responses = sessionA.responses ++
          [{ question_id := "q1",
             is_correct := "a".toLower.trim == "a".toLower.trim,
             response_time := 5,
             question_difficulty := (stateB.question_difficulties.lookup "q1").getD 0.5 }]
      ∧ res.correct = ("a".toLower.trim == "a".toLower.trim)
      ∧ res.new_ability_estimate = s'.current_ability_estimate
      ∧ res.ability_estimate_change =
          res.new_ability_estimate - sessionA.current_ability_estimate :=
  submit_answer_appends_one_record stateB dbB "s1" "q1" "a" 5 none false none sessionA
    { id := "q1", correct_answer := "a" }
    (by simp [stateB, List.lookup]) (by simp [dbB, List.find?])

/-- Claim C3 (amended): an unknown `sessionId` (or a question id absent
    from the question bank) makes `submit_adaptive_answer` fail with a
    synchronous error, but a `questionId` that exists in the bank and was
    never issued for the session is accepted silently — the call succeeds
    and session state is updated — and the engine-level
    `update_ability_estimate` silently returns the default ability 0.5,
    with no state change, for an unknown session. -/
theorem submit_usage_error_behavior (st : AdaptiveEngineState) (db : List BankQuestion)
    (sid qid ans : String) (rt : ℚ) (ta : Option String) (ah : Bool)
    (ad : Option (String × String)) :
    (st.session_data.lookup sid = none →
      ∃ e, submit_adaptive_answer st db sid qid ans rt ta ah ad = .error e)
    ∧ (db.find? (fun x => x.id == qid) = none →
        submit_adaptive_answer st db sid qid ans rt ta ah ad = .error .questionNotFound)
    ∧ (∀ s q, st.session_data.lookup sid = some s →
        db.find? (fun x => x.id == qid) = some q →
        ∃ r, submit_adaptive_answer st db sid qid ans rt ta ah ad = .ok r)
    ∧ (st.session_data.lookup sid = none →
        update_ability_estimate st sid qid true rt ta = (st, 0.5)) := by
  refine ⟨?_, ?_, ?_, ?_⟩
  · intro h
    cases hfind : db.find? (fun x => x.id == qid) with
    | none => exact ⟨.questionNotFound, by simp [submit_adaptive_answer, hfind]⟩
    | some q => exact ⟨.sessionNotFound, by simp [submit_adaptive_answer, hfind, h]⟩
  · intro h
    simp [submit_adaptive_answer, h]
  · intro s q hsid hfind
    obtain ⟨st', res, s', hok, _⟩ :=
      submit_ok_spec st db sid qid ans rt ta ah ad s q hsid hfind
    exact ⟨(st', res), hok⟩
  · intro h
    simp [update_ability_estimate, h]

/-- Claim C3 counterexample: `"q2"` was never issued for `sessionC`
    (its asked list is `["q1"]`), yet submitting it succeeds — no
    `UsageError` — returning ability 0.53 computed from the default
    difficulty 0.5 and appending a response record to the session; and the
    engine-level `update_ability_estimate` silently returns the default
    ability 0.5, leaving the state unchanged, for an unknown session id. -/
theorem submit_unissued_question_accepted :
    ("q2" ∉ sessionC.questions_asked)
    ∧ (∃ st' res, submit_adaptive_answer stateC dbC "s1" "q2" "b" 5 none false none
        = .ok (st', res)
        ∧ res.new_ability_estimate = 0.53
        ∧ ∃ s', st'.session_data.lookup "s1" = some s'
            ∧ s'.responses = sessionC.responses ++
                [{ question_id := "q2", is_correct := true, response_time := 5,
                   question_difficulty := 0.5 }])
    ∧ update_ability_estimate stateC "missing" "q1" true 5 none = (stateC, 0.5) := by
  have hlookC : stateC.session_data.lookup "s1" = some sessionC := by
    simp [stateC, List.lookup]
  have hfind : dbC.find? (fun x => x.id == "q2") =
      some { id := "q2", correct_answer := "b" } := by
    simp [dbC, List.find?]
  refine ⟨by decide, ?_, ?_⟩
  · obtain ⟨st', res, s', hok, hlook', hresp, _, _, _, hnewval⟩ :=
      submit_ok_spec stateC dbC "s1" "q2" "b" 5 none false none sessionC
        { id := "q2", correct_answer := "b" } hlookC hfind
    have hval : (update_ability_estimate stateC "s1" "q2"
        ("b".toLower.trim == "b".toLower.trim) 5 none).2 = 0.53 := by
      rw [show ("b".toLower.trim == "b".toLower.trim) = true from beq_self_eq_true _]
      rw [update_ability_estimate_eq stateC "s1" "q2" true 5 none sessionC hlookC]
      show max 0.0 (min 1.0 (sessionC.current_ability_estimate +
        updAdj stateC "q2" true 5 none sessionC)) = 0.53
      norm_num [updAdj, stateC, sessionC, sessionA, List.lookup, min_def, max_def]
    refine ⟨st', res, hok, ?_, s', hlook', ?_⟩
    · rw [hnewval rfl]
      exact hval
    · rw [hresp]
      norm_num [stateC, List.lookup, beq_self_eq_true]
  · have hm : stateC.session_data.lookup "missing" = none := by
      simp [stateC, List.lookup]
    simp [update_ability_estimate, hm]

end AdaptiveAssessment
